import Mathlib

/-!
Verification of the `verify_facts` fact matcher of textarena-mcp
(src/index.ts): the LCS-based similarity scorer `calculateSimilarity`,
the exact bidirectional match pass, the approximate best-match pass with
its 0.6 threshold and orientation flip, and the dataset-load error path.

Strings are modelled as `List Char`; the similarity scores, computed over
IEEE doubles in the source, are modelled exactly over `ℚ`.
-/

/-- One entry of facts.json: two fact strings and the recorded correct
designation (`item.facts.fact1`, `item.facts.fact2`, `item.correct_fact`). -/
structure FactRecord where
  fact1 : List Char
  fact2 : List Char
  correct_fact : String
deriving DecidableEq, Repr

/-- The LCS dynamic-programming table of `calculateSimilarity`:
`lcsTable str1 str2 i j` is `matrix[i][j]`, the LCS length of the first
`i` characters of `str1` and the first `j` characters of `str2`.
Corresponds to the fill loop: `matrix[i][j] = matrix[i-1][j-1] + 1` when
`str1[i-1] == str2[j-1]`, else `max(matrix[i-1][j], matrix[i][j-1])`
(the default character of `getD` is never read at in-range indices). -/
def lcsTable (str1 str2 : List Char) : Nat → Nat → Nat
  | 0, _ => 0
  | _ + 1, 0 => 0
  | i + 1, j + 1 =>
    if str1.getD i ' ' = str2.getD j ' ' then
      lcsTable str1 str2 i j + 1
    else
      max (lcsTable str1 str2 i (j + 1)) (lcsTable str1 str2 (i + 1) j)

/-- `calculateSimilarity(str1, str2)`: 0 when either string is empty,
otherwise `2 * lcs / (len1 + len2)` with `lcs = matrix[len1][len2]`. -/
def calculateSimilarity (str1 str2 : List Char) : ℚ :=
  if str1.length = 0 ∨ str2.length = 0 then 0
  else (2 * (lcsTable str1 str2 str1.length str2.length : ℚ)) /
    ((str1.length : ℚ) + (str2.length : ℚ))

/-- The orientation flip applied by the source on a swapped match:
`item.correct_fact === "fact2" ? "fact1" : "fact2"`. -/
def flipDesignation (s : String) : String :=
  if s = "fact2" then "fact1" else "fact2"

/-- The exact-match loop of `verify_facts`: scan the dataset in order and
return, at the first record pairing the two query facts in either order,
`correct_fact` (straight order) or its flip (swapped order). -/
def exactPass (fact1 fact2 : List Char) : List FactRecord → Option String
  | [] => none
  | item :: rest =>
    if (item.fact1 = fact1 ∧ item.fact2 = fact2) ∨
        (item.fact1 = fact2 ∧ item.fact2 = fact1) then
      some (if item.fact1 = fact1 then item.correct_fact
            else flipDesignation item.correct_fact)
    else
      exactPass fact1 fact2 rest

/-- `similarity1` of the approximate loop: the straight alignment sum. -/
def straightSum (fact1 fact2 : List Char) (item : FactRecord) : ℚ :=
  calculateSimilarity fact1 item.fact1 + calculateSimilarity fact2 item.fact2

/-- `similarity2` of the approximate loop: the swapped alignment sum. -/
def swappedSum (fact1 fact2 : List Char) (item : FactRecord) : ℚ :=
  calculateSimilarity fact1 item.fact2 + calculateSimilarity fact2 item.fact1

/-- Per-record arrangement selection of the approximate loop:
`if (similarity1 > similarity2)` take `(similarity1 / 2, not flipped)`,
otherwise `(similarity2 / 2, flipped)`. -/
def currentChoice (fact1 fact2 : List Char) (item : FactRecord) : ℚ × Bool :=
  if swappedSum fact1 fact2 item < straightSum fact1 fact2 item then
    (straightSum fact1 fact2 item / 2, false)
  else
    (swappedSum fact1 fact2 item / 2, true)

/-- The per-record score `currentSimilarity` tracked by the loop. -/
def recordScore (fact1 fact2 : List Char) (item : FactRecord) : ℚ :=
  (currentChoice fact1 fact2 item).1

/-- The per-record `currentFlipped` flag tracked by the loop. -/
def alignmentFlipped (fact1 fact2 : List Char) (item : FactRecord) : Bool :=
  (currentChoice fact1 fact2 item).2

/-- One iteration of the approximate loop body over the running state
`(closestMatch, highestSimilarity, isFlipped)`: update the state exactly
when `currentSimilarity > highestSimilarity`. -/
def approxStep (fact1 fact2 : List Char)
    (st : Option FactRecord × ℚ × Bool) (item : FactRecord) :
    Option FactRecord × ℚ × Bool :=
  if st.2.1 < recordScore fact1 fact2 item then
    (some item, recordScore fact1 fact2 item, alignmentFlipped fact1 fact2 item)
  else st

/-- The whole approximate loop, from the initial state
`closestMatch = null, highestSimilarity = 0, isFlipped = false`. -/
def approxPass (fact1 fact2 : List Char) (ds : List FactRecord) :
    Option FactRecord × ℚ × Bool :=
  ds.foldl (approxStep fact1 fact2) ((none : Option FactRecord), (0 : ℚ), false)

/-- The matcher of the `verify_facts` tool: exact pass, then approximate
pass with the exclusive 0.6 threshold, then `"No match found"`. -/
def verify_facts (fact1 fact2 : List Char) (factsDataset : List FactRecord) :
    String :=
  match exactPass fact1 fact2 factsDataset with
  | some d => d
  | none =>
    match approxPass fact1 fact2 factsDataset with
    | (some closestMatch, highestSimilarity, isFlipped) =>
      if (6 : ℚ) / 10 < highestSimilarity then
        if isFlipped then flipDesignation closestMatch.correct_fact
        else closestMatch.correct_fact
      else "No match found"
    | (none, _, _) => "No match found"

/-- The running maximum of per-record scores starting from `s0` — the
value taken by `highestSimilarity` across the loop. -/
def runningMax (fact1 fact2 : List Char) (s0 : ℚ) (ds : List FactRecord) : ℚ :=
  ds.foldl (fun a r => max a (recordScore fact1 fact2 r)) s0

/-- The first record of the dataset attaining the best per-record score
(first-seen wins ties under the strict `>` tracking). -/
def firstBest (fact1 fact2 : List Char) (ds : List FactRecord) :
    Option FactRecord :=
  ds.find? (fun r => decide (recordScore fact1 fact2 r = runningMax fact1 fact2 0 ds))

/-- The exact-pass match condition on one record:
`(item.facts.fact1 === fact1 && item.facts.fact2 === fact2) ||
 (item.facts.fact1 === fact2 && item.facts.fact2 === fact1)`. -/
def exactMatches (fact1 fact2 : List Char) (item : FactRecord) : Prop :=
  (item.fact1 = fact1 ∧ item.fact2 = fact2) ∨
  (item.fact1 = fact2 ∧ item.fact2 = fact1)

instance (fact1 fact2 : List Char) (item : FactRecord) :
    Decidable (exactMatches fact1 fact2 item) :=
  inferInstanceAs (Decidable (_ ∨ _))

/-- A record is well formed when its recorded designation is one of the
two allowed literals. -/
def WellFormedRecord (r : FactRecord) : Prop :=
  r.correct_fact = "fact1" ∨ r.correct_fact = "fact2"

instance : DecidablePred WellFormedRecord := fun r =>
  inferInstanceAs (Decidable (_ ∨ _))

/-- The shape of a tool response: its text payload and the `isError` flag. -/
structure ToolResult where
  text : String
  isError : Bool
deriving DecidableEq, Repr

/-- The `verify_facts` request handler around the matcher: the dataset
load (`fs.readFile` + `JSON.parse` inside try/catch) either fails with an
error message — returned as an `isError` result, with no matching done —
or yields the dataset the matcher runs on. -/
def verifyFactsHandler (fact1 fact2 : List Char)
    (loaded : Except String (List FactRecord)) : ToolResult :=
  match loaded with
  | Except.error err => ⟨"Error loading facts database: " ++ err, true⟩
  | Except.ok ds => ⟨verify_facts fact1 fact2 ds, false⟩

/-! ### Properties of the similarity scorer -/

theorem lcsTable_le_min_aux (str1 str2 : List Char) :
    ∀ n i j, i + j ≤ n → lcsTable str1 str2 i j ≤ min i j := by
  intro n
  induction n with
  | zero =>
    intro i j h
    have hi : i = 0 := by omega
    subst hi
    simp [lcsTable]
  | succ n ih =>
    intro i j h
    match i, j with
    | 0, j => simp [lcsTable]
    | i + 1, 0 => simp [lcsTable]
    | i + 1, j + 1 =>
      have h1 := ih i j (by omega)
      have h2 := ih i (j + 1) (by omega)
      have h3 := ih (i + 1) j (by omega)
      simp only [lcsTable]
      split
      · omega
      · omega

theorem lcsTable_le_min (str1 str2 : List Char) (i j : Nat) :
    lcsTable str1 str2 i j ≤ min i j :=
  lcsTable_le_min_aux str1 str2 (i + j) i j le_rfl

theorem lcsTable_diag (str : List Char) : ∀ i, lcsTable str str i i = i := by
  intro i
  induction i with
  | zero => simp [lcsTable]
  | succ i ih => simp [lcsTable, ih]

theorem calculateSimilarity_nonneg (a b : List Char) :
    0 ≤ calculateSimilarity a b := by
  unfold calculateSimilarity
  split
  · exact le_refl 0
  · positivity

theorem calculateSimilarity_le_one (a b : List Char) :
    calculateSimilarity a b ≤ 1 := by
  unfold calculateSimilarity
  split
  · exact zero_le_one
  · rename_i hne
    push_neg at hne
    obtain ⟨h1, h2⟩ := hne
    have hd : (0 : ℚ) < (a.length : ℚ) + (b.length : ℚ) := by
      have : 0 < a.length := Nat.pos_of_ne_zero h1
      have : (0 : ℚ) < (a.length : ℚ) := by exact_mod_cast this
      have hb0 : (0 : ℚ) ≤ (b.length : ℚ) := by positivity
      linarith
    rw [div_le_one hd]
    have hn : 2 * lcsTable a b a.length b.length ≤ a.length + b.length := by
      have := lcsTable_le_min a b a.length b.length
      omega
    exact_mod_cast hn

/-! ### Properties of the approximate pass -/

theorem currentChoice_fst (fact1 fact2 : List Char) (item : FactRecord) :
    (currentChoice fact1 fact2 item).1 =
      max (straightSum fact1 fact2 item) (swappedSum fact1 fact2 item) / 2 := by
  unfold currentChoice
  split
  · rename_i h
    rw [max_eq_left h.le]
  · rename_i h
    rw [max_eq_right (le_of_not_lt h)]

theorem currentChoice_snd (fact1 fact2 : List Char) (item : FactRecord) :
    (currentChoice fact1 fact2 item).2 =
      decide (straightSum fact1 fact2 item ≤ swappedSum fact1 fact2 item) := by
  unfold currentChoice
  split
  · rename_i h
    simp [not_le.mpr h]
  · rename_i h
    simp [le_of_not_lt h]

theorem recordScore_eq (fact1 fact2 : List Char) (item : FactRecord) :
    recordScore fact1 fact2 item =
      max (straightSum fact1 fact2 item) (swappedSum fact1 fact2 item) / 2 :=
  currentChoice_fst fact1 fact2 item

theorem alignmentFlipped_eq (fact1 fact2 : List Char) (item : FactRecord) :
    alignmentFlipped fact1 fact2 item =
      decide (straightSum fact1 fact2 item ≤ swappedSum fact1 fact2 item) :=
  currentChoice_snd fact1 fact2 item

theorem straightSum_nonneg (fact1 fact2 : List Char) (item : FactRecord) :
    0 ≤ straightSum fact1 fact2 item :=
  add_nonneg (calculateSimilarity_nonneg _ _) (calculateSimilarity_nonneg _ _)

theorem recordScore_nonneg (fact1 fact2 : List Char) (item : FactRecord) :
    0 ≤ recordScore fact1 fact2 item := by
  rw [recordScore_eq]
  have h := straightSum_nonneg fact1 fact2 item
  have h2 := le_max_left (straightSum fact1 fact2 item) (swappedSum fact1 fact2 item)
  linarith

theorem le_runningMax (fact1 fact2 : List Char) :
    ∀ (ds : List FactRecord) (s0 : ℚ), s0 ≤ runningMax fact1 fact2 s0 ds := by
  intro ds
  induction ds with
  | nil => intro s0; exact le_refl s0
  | cons a rest ih =>
    intro s0
    exact le_trans (le_max_left s0 (recordScore fact1 fact2 a))
      (ih (max s0 (recordScore fact1 fact2 a)))

theorem runningMax_attained (fact1 fact2 : List Char) :
    ∀ (ds : List FactRecord) (s0 : ℚ),
      runningMax fact1 fact2 s0 ds = s0 ∨
      ∃ r ∈ ds, recordScore fact1 fact2 r = runningMax fact1 fact2 s0 ds := by
  intro ds
  induction ds with
  | nil => intro s0; left; rfl
  | cons a rest ih =>
    intro s0
    rcases ih (max s0 (recordScore fact1 fact2 a)) with h | ⟨x, hx, hxe⟩
    · by_cases hc : recordScore fact1 fact2 a ≤ s0
      · left
        show runningMax fact1 fact2 (max s0 (recordScore fact1 fact2 a)) rest = s0
        rw [h, max_eq_left hc]
      · right
        refine ⟨a, List.mem_cons_self a rest, ?_⟩
        show recordScore fact1 fact2 a =
          runningMax fact1 fact2 (max s0 (recordScore fact1 fact2 a)) rest
        rw [h, max_eq_right (le_of_not_le hc)]
    · right
      exact ⟨x, List.mem_cons_of_mem a hx, hxe⟩

theorem find_ext {α : Type} (p q : α → Bool) :
    ∀ (l : List α), (∀ x ∈ l, p x = q x) → l.find? p = l.find? q := by
  intro l
  induction l with
  | nil => intro _; rfl
  | cons a rest ih =>
    intro h
    have ha := h a (List.mem_cons_self a rest)
    rw [List.find?_cons, List.find?_cons, ha]
    cases q a with
    | true => rfl
    | false => exact ih fun x hx => h x (List.mem_cons_of_mem a hx)

theorem foldl_approxStep_char (fact1 fact2 : List Char) :
    ∀ (ds : List FactRecord) (m0 : Option FactRecord) (s0 : ℚ) (fl0 : Bool),
    List.foldl (approxStep fact1 fact2) (m0, s0, fl0) ds =
      match ds.find? (fun r => decide (s0 < recordScore fact1 fact2 r ∧
          recordScore fact1 fact2 r = runningMax fact1 fact2 s0 ds)) with
      | none => (m0, s0, fl0)
      | some r => (some r, runningMax fact1 fact2 s0 ds,
          alignmentFlipped fact1 fact2 r) := by
  intro ds
  induction ds with
  | nil => intro m0 s0 fl0; rfl
  | cons a rest ih =>
    intro m0 s0 fl0
    have hrm : runningMax fact1 fact2 s0 (a :: rest) =
        runningMax fact1 fact2 (max s0 (recordScore fact1 fact2 a)) rest := rfl
    rw [List.foldl_cons]
    by_cases h : s0 < recordScore fact1 fact2 a
    · have hstep : approxStep fact1 fact2 (m0, s0, fl0) a =
          (some a, recordScore fact1 fact2 a, alignmentFlipped fact1 fact2 a) := by
        simp [approxStep, h]
      rw [hstep, ih (some a) (recordScore fact1 fact2 a)
        (alignmentFlipped fact1 fact2 a)]
      have hmax : max s0 (recordScore fact1 fact2 a) = recordScore fact1 fact2 a :=
        max_eq_right h.le
      simp only [hrm, hmax]
      by_cases hM : recordScore fact1 fact2 a =
          runningMax fact1 fact2 (recordScore fact1 fact2 a) rest
      · have hpa : decide (s0 < recordScore fact1 fact2 a ∧
            recordScore fact1 fact2 a =
              runningMax fact1 fact2 (recordScore fact1 fact2 a) rest) = true := by
          simp only [decide_eq_true_eq]
          exact ⟨h, hM⟩
        have hfc : List.find? (fun r =>
            decide (s0 < recordScore fact1 fact2 r ∧
              recordScore fact1 fact2 r =
                runningMax fact1 fact2 (recordScore fact1 fact2 a) rest))
            (a :: rest) = some a := List.find?_cons_of_pos rest hpa
        rw [hfc]
        have hnone : rest.find? (fun r =>
            decide (recordScore fact1 fact2 a < recordScore fact1 fact2 r ∧
              recordScore fact1 fact2 r =
                runningMax fact1 fact2 (recordScore fact1 fact2 a) rest)) = none := by
          rw [List.find?_eq_none]
          intro x _
          simp only [decide_eq_true_eq, not_and]
          intro h1 h2
          rw [h2] at h1
          exact absurd hM (ne_of_lt h1)
        rw [hnone, ← hM]
      · have hle : recordScore fact1 fact2 a ≤
            runningMax fact1 fact2 (recordScore fact1 fact2 a) rest :=
          le_runningMax fact1 fact2 rest _
        have hlt : recordScore fact1 fact2 a <
            runningMax fact1 fact2 (recordScore fact1 fact2 a) rest :=
          lt_of_le_of_ne hle hM
        have hpa : ¬ (decide (s0 < recordScore fact1 fact2 a ∧
            recordScore fact1 fact2 a =
              runningMax fact1 fact2 (recordScore fact1 fact2 a) rest) = true) := by
          simp only [decide_eq_true_eq]
          intro hc
          exact hM hc.2
        have hfc : List.find? (fun r =>
            decide (s0 < recordScore fact1 fact2 r ∧
              recordScore fact1 fact2 r =
                runningMax fact1 fact2 (recordScore fact1 fact2 a) rest))
            (a :: rest) = List.find? (fun r =>
            decide (s0 < recordScore fact1 fact2 r ∧
              recordScore fact1 fact2 r =
                runningMax fact1 fact2 (recordScore fact1 fact2 a) rest)) rest :=
          List.find?_cons_of_neg rest hpa
        rw [hfc]
        have hpe : ∀ x ∈ rest, (fun r =>
            decide (recordScore fact1 fact2 a < recordScore fact1 fact2 r ∧
              recordScore fact1 fact2 r =
                runningMax fact1 fact2 (recordScore fact1 fact2 a) rest)) x =
            (fun r => decide (s0 < recordScore fact1 fact2 r ∧
              recordScore fact1 fact2 r =
                runningMax fact1 fact2 (recordScore fact1 fact2 a) rest)) x := by
          intro x _
          simp only [decide_eq_decide]
          constructor
          · rintro ⟨h1, h2⟩
            exact ⟨lt_trans h h1, h2⟩
          · rintro ⟨_, h2⟩
            refine ⟨?_, h2⟩
            rw [h2]
            exact hlt
        rw [find_ext _ _ rest hpe]
        rcases runningMax_attained fact1 fact2 rest (recordScore fact1 fact2 a)
          with hA | ⟨x, hx, hxe⟩
        · exact absurd hA.symm hM
        · cases hfq : rest.find? (fun r =>
              decide (s0 < recordScore fact1 fact2 r ∧
                recordScore fact1 fact2 r =
                  runningMax fact1 fact2 (recordScore fact1 fact2 a) rest)) with
          | none =>
            exfalso
            apply List.find?_eq_none.mp hfq x hx
            simp only [decide_eq_true_eq]
            have hsx : s0 < recordScore fact1 fact2 x := by
              rw [hxe]
              exact lt_trans h hlt
            exact ⟨hsx, hxe⟩
          | some y => rfl
    · have hstep : approxStep fact1 fact2 (m0, s0, fl0) a = (m0, s0, fl0) := by
        simp [approxStep, h]
      rw [hstep, ih m0 s0 fl0]
      have hmax : max s0 (recordScore fact1 fact2 a) = s0 :=
        max_eq_left (le_of_not_lt h)
      simp only [hrm, hmax]
      have hpa : ¬ (decide (s0 < recordScore fact1 fact2 a ∧
          recordScore fact1 fact2 a = runningMax fact1 fact2 s0 rest) = true) := by
        simp only [decide_eq_true_eq]
        intro hc
        exact h hc.1
      have hfc : List.find? (fun r =>
          decide (s0 < recordScore fact1 fact2 r ∧
            recordScore fact1 fact2 r = runningMax fact1 fact2 s0 rest))
          (a :: rest) = List.find? (fun r =>
          decide (s0 < recordScore fact1 fact2 r ∧
            recordScore fact1 fact2 r = runningMax fact1 fact2 s0 rest)) rest :=
        List.find?_cons_of_neg rest hpa
      rw [hfc]

theorem approxPass_char (fact1 fact2 : List Char) (ds : List FactRecord) :
    approxPass fact1 fact2 ds =
      match ds.find? (fun r => decide (0 < recordScore fact1 fact2 r ∧
          recordScore fact1 fact2 r = runningMax fact1 fact2 0 ds)) with
      | none => ((none : Option FactRecord), (0 : ℚ), false)
      | some r => (some r, runningMax fact1 fact2 0 ds,
          alignmentFlipped fact1 fact2 r) :=
  foldl_approxStep_char fact1 fact2 ds none 0 false

theorem approxPass_some (fact1 fact2 : List Char) (ds : List FactRecord)
    (r : FactRecord) (s : ℚ) (fl : Bool)
    (h : approxPass fact1 fact2 ds = (some r, s, fl)) :
    r ∈ ds ∧ s = runningMax fact1 fact2 0 ds ∧
    fl = alignmentFlipped fact1 fact2 r ∧ recordScore fact1 fact2 r = s ∧
    0 < s := by
  rw [approxPass_char] at h
  cases hfq : ds.find? (fun r => decide (0 < recordScore fact1 fact2 r ∧
      recordScore fact1 fact2 r = runningMax fact1 fact2 0 ds)) with
  | none =>
    rw [hfq] at h
    simp at h
  | some x =>
    rw [hfq] at h
    have hp := List.find?_some hfq
    have hmem := List.mem_of_find?_eq_some hfq
    simp only [decide_eq_true_eq] at hp
    simp only [Prod.mk.injEq, Option.some.injEq] at h
    obtain ⟨hxr, hs, hfl⟩ := h
    subst hxr
    refine ⟨hmem, hs.symm, hfl.symm, ?_, ?_⟩
    · rw [hp.2, hs]
    · rw [← hs]
      exact lt_of_lt_of_le hp.1 (le_of_eq hp.2)

/-! ### Properties of the exact pass -/

theorem exactPass_append_first (fact1 fact2 : List Char) :
    ∀ (pre : List FactRecord) (item : FactRecord) (post : List FactRecord),
    (∀ r ∈ pre, ¬ exactMatches fact1 fact2 r) → exactMatches fact1 fact2 item →
    exactPass fact1 fact2 (pre ++ item :: post) =
      some (if item.fact1 = fact1 then item.correct_fact
            else flipDesignation item.correct_fact) := by
  intro pre
  induction pre with
  | nil =>
    intro item post _ hitem
    have hc : (item.fact1 = fact1 ∧ item.fact2 = fact2) ∨
        (item.fact1 = fact2 ∧ item.fact2 = fact1) := hitem
    simp only [List.nil_append, exactPass, if_pos hc]
  | cons p pre ih =>
    intro item post hpre hitem
    have hp : ¬ ((p.fact1 = fact1 ∧ p.fact2 = fact2) ∨
        (p.fact1 = fact2 ∧ p.fact2 = fact1)) :=
      hpre p (List.mem_cons_self p pre)
    simp only [List.cons_append, exactPass, if_neg hp]
    exact ih item post (fun r hr => hpre r (List.mem_cons_of_mem p hr)) hitem

theorem exactPass_some_mem (fact1 fact2 : List Char) :
    ∀ (ds : List FactRecord) (d : String), exactPass fact1 fact2 ds = some d →
    ∃ r ∈ ds, d = r.correct_fact ∨ d = flipDesignation r.correct_fact := by
  intro ds
  induction ds with
  | nil =>
    intro d h
    simp [exactPass] at h
  | cons a rest ih =>
    intro d h
    simp only [exactPass] at h
    by_cases hc : (a.fact1 = fact1 ∧ a.fact2 = fact2) ∨
        (a.fact1 = fact2 ∧ a.fact2 = fact1)
    · rw [if_pos hc] at h
      refine ⟨a, List.mem_cons_self a rest, ?_⟩
      have hd := Option.some.inj h
      by_cases h2 : a.fact1 = fact1
      · left
        rw [← hd, if_pos h2]
      · right
        rw [← hd, if_neg h2]
    · rw [if_neg hc] at h
      obtain ⟨r, hr, hd⟩ := ih d h
      exact ⟨r, List.mem_cons_of_mem a hr, hd⟩

theorem flipDesignation_cases (s : String) :
    flipDesignation s = "fact1" ∨ flipDesignation s = "fact2" := by
  unfold flipDesignation
  split
  · left; rfl
  · right; rfl

/-! ### Outcome trichotomy of the matcher -/

theorem verify_facts_eq_exact (fact1 fact2 : List Char) (ds : List FactRecord)
    (d : String) (hex : exactPass fact1 fact2 ds = some d) :
    verify_facts fact1 fact2 ds = d := by
  unfold verify_facts
  rw [hex]

theorem verify_facts_eq_approx_none (fact1 fact2 : List Char)
    (ds : List FactRecord) (s : ℚ) (fl : Bool)
    (hex : exactPass fact1 fact2 ds = none)
    (happ : approxPass fact1 fact2 ds = (none, s, fl)) :
    verify_facts fact1 fact2 ds = "No match found" := by
  unfold verify_facts
  rw [hex, happ]

theorem verify_facts_eq_approx_some (fact1 fact2 : List Char)
    (ds : List FactRecord) (r : FactRecord) (s : ℚ) (fl : Bool)
    (hex : exactPass fact1 fact2 ds = none)
    (happ : approxPass fact1 fact2 ds = (some r, s, fl)) :
    verify_facts fact1 fact2 ds =
      (if (6 : ℚ) / 10 < s then
        if fl then flipDesignation r.correct_fact else r.correct_fact
      else "No match found") := by
  unfold verify_facts
  rw [hex, happ]

theorem verify_facts_outcomes (fact1 fact2 : List Char) (ds : List FactRecord)
    (hwf : ∀ r ∈ ds, WellFormedRecord r) :
    verify_facts fact1 fact2 ds = "fact1" ∨ verify_facts fact1 fact2 ds = "fact2" ∨
    verify_facts fact1 fact2 ds = "No match found" := by
  cases hex : exactPass fact1 fact2 ds with
  | some d =>
    rw [verify_facts_eq_exact fact1 fact2 ds d hex]
    obtain ⟨r, hr, hd⟩ := exactPass_some_mem fact1 fact2 ds d hex
    have hw := hwf r hr
    rcases hd with hd | hd
    · rcases hw with hw | hw
      · left; rw [hd, hw]
      · right; left; rw [hd, hw]
    · rcases flipDesignation_cases r.correct_fact with hf | hf
      · left; rw [hd, hf]
      · right; left; rw [hd, hf]
  | none =>
    rcases happ : approxPass fact1 fact2 ds with ⟨m, s, fl⟩
    cases m with
    | none =>
      right; right
      exact verify_facts_eq_approx_none fact1 fact2 ds s fl hex happ
    | some r =>
      rw [verify_facts_eq_approx_some fact1 fact2 ds r s fl hex happ]
      obtain ⟨hmem, _, _, _, _⟩ := approxPass_some fact1 fact2 ds r s fl happ
      have hw := hwf r hmem
      by_cases ht : (6 : ℚ) / 10 < s
      · rw [if_pos ht]
        cases fl with
        | true =>
          rw [if_pos rfl]
          rcases flipDesignation_cases r.correct_fact with hf | hf
          · left; exact hf
          · right; left; exact hf
        | false =>
          rw [if_neg (by simp : ¬ (false = true))]
          rcases hw with hw | hw
          · left; exact hw
          · right; left; exact hw
      · rw [if_neg ht]
        right; right; rfl

/-! ### The claims -/

/-- Claim C1: the exact pass scans the dataset in order; the first record
matching the query pair straight or swapped determines the result — the
designation is `correct_fact` unchanged when `record.fact1 == query.fact1`
and its fact1/fact2 swap otherwise — and no later record influences it. -/
theorem verify_facts_exact_first (fact1 fact2 : List Char)
    (pre post : List FactRecord) (item : FactRecord)
    (hpre : ∀ r ∈ pre, ¬ exactMatches fact1 fact2 r)
    (hitem : exactMatches fact1 fact2 item)
    (hwf : WellFormedRecord item) :
    verify_facts fact1 fact2 (pre ++ item :: post) =
      (if item.fact1 = fact1 then item.correct_fact
       else if item.correct_fact = "fact1" then "fact2" else "fact1") := by
  have hex := exactPass_append_first fact1 fact2 pre item post hpre hitem
  rw [verify_facts_eq_exact _ _ _ _ hex]
  by_cases h2 : item.fact1 = fact1
  · rw [if_pos h2, if_pos h2]
  · rw [if_neg h2, if_neg h2]
    rcases hwf with hw | hw
    · rw [hw]; rfl
    · rw [hw]; rfl

/-- Witness for C1: a swapped match on the second record, with a
non-matching record before it and another matching record after it. -/
theorem verify_facts_exact_first_w :
    verify_facts ['b'] ['a']
      [⟨['x'], ['y'], "fact1"⟩, ⟨['a'], ['b'], "fact2"⟩, ⟨['a'], ['b'], "fact1"⟩] =
      "fact1" := by
  have h := verify_facts_exact_first ['b'] ['a'] [⟨['x'], ['y'], "fact1"⟩]
    [⟨['a'], ['b'], "fact1"⟩] ⟨['a'], ['b'], "fact2"⟩
    (by decide) (by decide) (by decide)
  simpa using h

/-- Claim C7: on an empty dataset both passes find nothing and the
fall-through branch returns "No match found" for every query. -/
theorem verify_facts_empty (fact1 fact2 : List Char) :
    verify_facts fact1 fact2 [] = "No match found" := rfl

/-- Claim C6: the similarity of a nonempty string with itself is exactly 1. -/
theorem calculateSimilarity_self (a : List Char) (h : a ≠ []) :
    calculateSimilarity a a = 1 := by
  have hl : a.length ≠ 0 := by
    intro h0
    exact h (List.length_eq_zero.mp h0)
  unfold calculateSimilarity
  rw [if_neg (by simp [hl])]
  rw [lcsTable_diag]
  have hq : ((a.length : ℚ)) ≠ 0 := Nat.cast_ne_zero.mpr hl
  field_simp
  ring

/-- Witness for C6 at the one-character string. -/
theorem calculateSimilarity_self_w : calculateSimilarity ['a'] ['a'] = 1 :=
  calculateSimilarity_self ['a'] (by decide)

/-- Claim C3: the scorer returns 0 when either string is empty, otherwise
`2 * LCS / (len a + len b)` with the LCS of the standard dynamic program,
and the result always lies in `[0, 1]`. -/
theorem calculateSimilarity_contract (a b : List Char) :
    (a.length = 0 ∨ b.length = 0 → calculateSimilarity a b = 0) ∧
    (a.length ≠ 0 → b.length ≠ 0 → calculateSimilarity a b =
      2 * (lcsTable a b a.length b.length : ℚ) /
        ((a.length : ℚ) + (b.length : ℚ))) ∧
    0 ≤ calculateSimilarity a b ∧ calculateSimilarity a b ≤ 1 := by
  refine ⟨?_, ?_, calculateSimilarity_nonneg a b, calculateSimilarity_le_one a b⟩
  · intro h
    unfold calculateSimilarity
    rw [if_pos h]
  · intro h1 h2
    unfold calculateSimilarity
    rw [if_neg (not_or.mpr ⟨h1, h2⟩)]

/-- Witness for C3 at concrete one-character strings. -/
theorem calculateSimilarity_contract_w :
    calculateSimilarity ['a'] [] = 0 ∧
    calculateSimilarity ['a'] ['b'] =
      2 * (lcsTable ['a'] ['b'] (['a'] : List Char).length
          (['b'] : List Char).length : ℚ) /
        (((['a'] : List Char).length : ℚ) + ((['b'] : List Char).length : ℚ)) ∧
    0 ≤ calculateSimilarity ['a'] ['b'] ∧ calculateSimilarity ['a'] ['b'] ≤ 1 :=
  ⟨(calculateSimilarity_contract ['a'] []).1 (by decide),
   (calculateSimilarity_contract ['a'] ['b']).2.1 (by decide) (by decide),
   (calculateSimilarity_contract ['a'] ['b']).2.2.1,
   (calculateSimilarity_contract ['a'] ['b']).2.2.2⟩

/-- Counterexample to Claim C5 as stated: with X = Y = "a", the two query
orders coincide, so the swapped-order call cannot return "fact2" — it
returns "fact1" like the straight-order call. -/
theorem verify_facts_order_cex :
    ¬ (verify_facts ['a'] ['a'] [⟨['a'], ['a'], "fact1"⟩] = "fact1" ∧
       verify_facts ['a'] ['a'] [⟨['a'], ['a'], "fact1"⟩] = "fact2") := by
  decide

/-- Claim C5 (amended with X ≠ Y): against the single-record dataset
`{fact1: X, fact2: Y, correct_fact: "fact1"}`, the straight-order query
returns "fact1" and the swapped-order query returns "fact2". -/
theorem verify_facts_order_insensitive (X Y : List Char) (h : X ≠ Y) :
    verify_facts X Y [⟨X, Y, "fact1"⟩] = "fact1" ∧
    verify_facts Y X [⟨X, Y, "fact1"⟩] = "fact2" := by
  constructor
  · have hex : exactPass X Y [⟨X, Y, "fact1"⟩] = some "fact1" := by
      simp [exactPass]
    exact verify_facts_eq_exact X Y _ _ hex
  · have hex : exactPass Y X [⟨X, Y, "fact1"⟩] = some "fact2" := by
      simp [exactPass, h, Ne.symm h, flipDesignation]
    exact verify_facts_eq_exact Y X _ _ hex

/-- Witness for the amended C5 at X = "a", Y = "b". -/
theorem verify_facts_order_insensitive_w :
    verify_facts ['a'] ['b'] [⟨['a'], ['b'], "fact1"⟩] = "fact1" ∧
    verify_facts ['b'] ['a'] [⟨['a'], ['b'], "fact1"⟩] = "fact2" :=
  verify_facts_order_insensitive ['a'] ['b'] (by decide)

/-- Claim C4: on a well-formed dataset, whenever the matcher returns a
designation at all, it is one of the labels "fact1" or "fact2" naming the
caller's query positions, never a dataset string value. -/
theorem verify_facts_designation (fact1 fact2 : List Char) (ds : List FactRecord)
    (hwf : ∀ r ∈ ds, WellFormedRecord r)
    (hres : verify_facts fact1 fact2 ds ≠ "No match found") :
    verify_facts fact1 fact2 ds = "fact1" ∨ verify_facts fact1 fact2 ds = "fact2" := by
  rcases verify_facts_outcomes fact1 fact2 ds hwf with h | h | h
  · left; exact h
  · right; exact h
  · exact absurd h hres

/-- Witness for C4 on a one-record dataset with an exact match. -/
theorem verify_facts_designation_w :
    verify_facts ['a'] ['b'] [⟨['a'], ['b'], "fact1"⟩] = "fact1" ∨
    verify_facts ['a'] ['b'] [⟨['a'], ['b'], "fact1"⟩] = "fact2" :=
  verify_facts_designation ['a'] ['b'] [⟨['a'], ['b'], "fact1"⟩]
    (by decide) (by decide)

/-- Claim C9: on well-formed in-memory data the matcher is total — the
result is always "fact1", "fact2" or "No match found" — and the handler's
success path carries it with no error flagged. -/
theorem verify_facts_totality (fact1 fact2 : List Char) (ds : List FactRecord)
    (hwf : ∀ r ∈ ds, WellFormedRecord r) :
    (verify_facts fact1 fact2 ds = "fact1" ∨ verify_facts fact1 fact2 ds = "fact2" ∨
      verify_facts fact1 fact2 ds = "No match found") ∧
    verifyFactsHandler fact1 fact2 (Except.ok ds) =
      ⟨verify_facts fact1 fact2 ds, false⟩ :=
  ⟨verify_facts_outcomes fact1 fact2 ds hwf, rfl⟩

/-- Witness for C9 on a concrete two-record dataset. -/
theorem verify_facts_totality_w :
    (verify_facts ['a'] ['z'] [⟨['a'], ['b'], "fact2"⟩, ⟨['c'], ['d'], "fact1"⟩] =
        "fact1" ∨
      verify_facts ['a'] ['z'] [⟨['a'], ['b'], "fact2"⟩, ⟨['c'], ['d'], "fact1"⟩] =
        "fact2" ∨
      verify_facts ['a'] ['z'] [⟨['a'], ['b'], "fact2"⟩, ⟨['c'], ['d'], "fact1"⟩] =
        "No match found") ∧
    verifyFactsHandler ['a'] ['z'] (Except.ok
        [⟨['a'], ['b'], "fact2"⟩, ⟨['c'], ['d'], "fact1"⟩]) =
      ⟨verify_facts ['a'] ['z'] [⟨['a'], ['b'], "fact2"⟩, ⟨['c'], ['d'], "fact1"⟩],
        false⟩ :=
  verify_facts_totality ['a'] ['z'] [⟨['a'], ['b'], "fact2"⟩, ⟨['c'], ['d'], "fact1"⟩]
    (by decide)

/-- Claim C8: when the dataset read or parse fails, the handler returns an
`isError` result whose text is a human-readable message distinct from the
success value "No match found", and no matching is performed. -/
theorem verifyFactsHandler_load_error (fact1 fact2 : List Char) (err : String) :
    verifyFactsHandler fact1 fact2 (Except.error err) =
      ⟨"Error loading facts database: " ++ err, true⟩ ∧
    (verifyFactsHandler fact1 fact2 (Except.error err)).isError = true ∧
    (verifyFactsHandler fact1 fact2 (Except.error err)).text ≠ "No match found" := by
  refine ⟨rfl, rfl, ?_⟩
  show "Error loading facts database: " ++ err ≠ "No match found"
  intro h
  have h2 := congrArg String.length h
  rw [String.length_append] at h2
  have e1 : ("Error loading facts database: " : String).length = 30 := rfl
  have e2 : ("No match found" : String).length = 14 := rfl
  rw [e1, e2] at h2
  omega

/-- Claim C2: with no exact match, each record's score is the larger of
the straight and swapped alignment sums divided by 2; the strict `>`
tracking selects the first record attaining the best score; a best score
above the exclusive 0.6 threshold yields that record's `correct_fact`
(flipped when the swapped alignment won), else "No match found". -/
theorem verify_facts_approx_best (fact1 fact2 : List Char) (ds : List FactRecord)
    (hne : exactPass fact1 fact2 ds = none) :
    (∀ r ∈ ds, recordScore fact1 fact2 r =
      max (straightSum fact1 fact2 r) (swappedSum fact1 fact2 r) / 2) ∧
    verify_facts fact1 fact2 ds =
      (match firstBest fact1 fact2 ds with
       | none => "No match found"
       | some r =>
         if (6 : ℚ) / 10 < recordScore fact1 fact2 r then
           (if straightSum fact1 fact2 r ≤ swappedSum fact1 fact2 r then
             flipDesignation r.correct_fact
           else r.correct_fact)
         else "No match found") := by
  constructor
  · intro r _
    exact recordScore_eq fact1 fact2 r
  · rcases happ : approxPass fact1 fact2 ds with ⟨m, s, fl⟩
    cases m with
    | none =>
      rw [verify_facts_eq_approx_none fact1 fact2 ds s fl hne happ]
      rw [approxPass_char] at happ
      cases hfq : ds.find? (fun r => decide (0 < recordScore fact1 fact2 r ∧
          recordScore fact1 fact2 r = runningMax fact1 fact2 0 ds)) with
      | some x =>
        rw [hfq] at happ
        simp at happ
      | none =>
        have hM0 : runningMax fact1 fact2 0 ds = 0 := by
          rcases runningMax_attained fact1 fact2 ds 0 with hA | ⟨x, hx, hxe⟩
          · exact hA
          · by_contra hne0
            have hpos : 0 < runningMax fact1 fact2 0 ds :=
              lt_of_le_of_ne (le_runningMax fact1 fact2 ds 0) (Ne.symm hne0)
            apply List.find?_eq_none.mp hfq x hx
            simp only [decide_eq_true_eq]
            refine ⟨?_, hxe⟩
            rw [hxe]
            exact hpos
        cases hfb : firstBest fact1 fact2 ds with
        | none => rfl
        | some r =>
          have hfb2 : ds.find? (fun t => decide (recordScore fact1 fact2 t =
              runningMax fact1 fact2 0 ds)) = some r := hfb
          have hp := List.find?_some hfb2
          simp only [decide_eq_true_eq] at hp
          have hnot : ¬ ((6 : ℚ) / 10 < recordScore fact1 fact2 r) := by
            rw [hp, hM0]
            norm_num
          show "No match found" =
            (if (6 : ℚ) / 10 < recordScore fact1 fact2 r then
              (if straightSum fact1 fact2 r ≤ swappedSum fact1 fact2 r then
                flipDesignation r.correct_fact
              else r.correct_fact)
            else "No match found")
          rw [if_neg hnot]
    | some r =>
      rw [verify_facts_eq_approx_some fact1 fact2 ds r s fl hne happ]
      obtain ⟨hmem, hsM, hflip, hscore, hpos⟩ :=
        approxPass_some fact1 fact2 ds r s fl happ
      rw [approxPass_char] at happ
      cases hfq : ds.find? (fun r => decide (0 < recordScore fact1 fact2 r ∧
          recordScore fact1 fact2 r = runningMax fact1 fact2 0 ds)) with
      | none =>
        rw [hfq] at happ
        simp at happ
      | some x =>
        rw [hfq] at happ
        simp only [Prod.mk.injEq, Option.some.injEq] at happ
        obtain ⟨hxr, hsM2, hfl2⟩ := happ
        have hfb : firstBest fact1 fact2 ds = some r := by
          unfold firstBest
          have hpe : ∀ y ∈ ds, (fun t => decide (recordScore fact1 fact2 t =
              runningMax fact1 fact2 0 ds)) y =
              (fun t => decide (0 < recordScore fact1 fact2 t ∧
                recordScore fact1 fact2 t = runningMax fact1 fact2 0 ds)) y := by
            intro y _
            simp only [decide_eq_decide]
            constructor
            · intro he
              refine ⟨?_, he⟩
              rw [he, ← hsM]
              exact hpos
            · intro hc
              exact hc.2
          rw [find_ext _ _ ds hpe, hfq, hxr]
        rw [hfb]
        show (if (6 : ℚ) / 10 < s then
            (if fl = true then flipDesignation r.correct_fact else r.correct_fact)
          else "No match found") =
          (if (6 : ℚ) / 10 < recordScore fact1 fact2 r then
            (if straightSum fact1 fact2 r ≤ swappedSum fact1 fact2 r then
              flipDesignation r.correct_fact
            else r.correct_fact)
          else "No match found")
        rw [hscore, hflip, alignmentFlipped_eq]
        simp only [decide_eq_true_eq]

/-- Witness for C2 on a one-record dataset with no exact match. -/
theorem verify_facts_approx_best_w :
    (∀ r ∈ [(⟨['a','b'], ['c','d'], "fact1"⟩ : FactRecord)],
      recordScore ['a','b'] ['x'] r =
        max (straightSum ['a','b'] ['x'] r) (swappedSum ['a','b'] ['x'] r) / 2) ∧
    verify_facts ['a','b'] ['x'] [⟨['a','b'], ['c','d'], "fact1"⟩] =
      (match firstBest ['a','b'] ['x'] [⟨['a','b'], ['c','d'], "fact1"⟩] with
       | none => "No match found"
       | some r =>
         if (6 : ℚ) / 10 < recordScore ['a','b'] ['x'] r then
           (if straightSum ['a','b'] ['x'] r ≤ swappedSum ['a','b'] ['x'] r then
             flipDesignation r.correct_fact
           else r.correct_fact)
         else "No match found") :=
  verify_facts_approx_best ['a','b'] ['x'] [⟨['a','b'], ['c','d'], "fact1"⟩]
    (by decide)

/-- Claim C10: when a record's straight and swapped alignment sums are
equal, the loop selects the swapped alignment (`currentFlipped = true`);
if that record wins the approximate pass above the threshold, the
returned designation is the flip of its `correct_fact`. -/
theorem verify_facts_tie_flip (fact1 fact2 : List Char) (ds : List FactRecord)
    (r : FactRecord) (s : ℚ) (fl : Bool)
    (hex : exactPass fact1 fact2 ds = none)
    (happ : approxPass fact1 fact2 ds = (some r, s, fl))
    (htie : straightSum fact1 fact2 r = swappedSum fact1 fact2 r)
    (hth : (6 : ℚ) / 10 < s)
    (hwf : WellFormedRecord r) :
    alignmentFlipped fact1 fact2 r = true ∧
    verify_facts fact1 fact2 ds =
      (if r.correct_fact = "fact1" then "fact2" else "fact1") := by
  have hflip : alignmentFlipped fact1 fact2 r = true := by
    rw [alignmentFlipped_eq]
    simp only [decide_eq_true_eq]
    exact le_of_eq htie
  refine ⟨hflip, ?_⟩
  obtain ⟨_, _, hfl, _, _⟩ := approxPass_some fact1 fact2 ds r s fl happ
  rw [verify_facts_eq_approx_some fact1 fact2 ds r s fl hex happ, if_pos hth,
    hfl, hflip, if_pos rfl]
  rcases hwf with hw | hw
  · rw [hw]; rfl
  · rw [hw]; rfl

/-- Witness for C10: both query facts equal "ab" against the record
("a", "a"), a tie with score 2/3 above the threshold. -/
theorem verify_facts_tie_flip_w :
    alignmentFlipped ['a','b'] ['a','b'] ⟨['a'], ['a'], "fact1"⟩ = true ∧
    verify_facts ['a','b'] ['a','b'] [⟨['a'], ['a'], "fact1"⟩] = "fact2" := by
  have happ : approxPass ['a','b'] ['a','b'] [⟨['a'], ['a'], "fact1"⟩] =
      (some ⟨['a'], ['a'], "fact1"⟩, 2/3, true) := by
    norm_num [approxPass, approxStep, currentChoice, recordScore,
      alignmentFlipped, straightSum, swappedSum, calculateSimilarity, lcsTable]
  have h := verify_facts_tie_flip ['a','b'] ['a','b'] [⟨['a'], ['a'], "fact1"⟩]
    ⟨['a'], ['a'], "fact1"⟩ (2/3) true (by decide) happ rfl (by norm_num)
    (by decide)
  simpa using h
